import Mathlib

/-!
Shallow embedding of the task-manager REST API (Express + Mongoose).

The embedding models:
* the persisted data (`User`, `Task`, `Store`),
* the external libraries the handlers call (`bcryptjs`, `jsonwebtoken`,
  JavaScript's `parseInt`, the MongoDB query pipeline), each as a small
  executable Lean function documented as a model of that library, and
* the request handlers themselves, translated line by line from
  `src/models/user.js`, `src/middleware/auth.js` (which also holds the
  task router), and `src/routers/userRouter.js`.

Responses are `(Store × Response)` pairs: the new persisted state and the
HTTP answer (status code plus JSON body).
-/

namespace TaskApp

/-- JSON value, the shape of request bodies and response bodies. -/
inductive JValue where
  | null
  | bool (b : Bool)
  | num (n : Int)
  | str (s : String)
  | arr (elems : List JValue)
  | obj (fields : List (String × JValue))
deriving Repr

/-- HTTP response: status code plus JSON body.  `res.send()` with no
argument is modelled as a `JValue.null` body. -/
structure Response where
  status : Nat
  body : JValue
deriving Repr

/-- User record, from the schema in `src/models/user.js`.  `_id` is a Nat
standing for the Mongo ObjectId; `password` holds the bcrypt hash after the
pre-save hook has run; `tokens` is the list of session-token strings (the
subdocument wrapper `{ token: ... }` is flattened); `avatar` is the optional
binary, modelled as an optional byte list. -/
structure User where
  id : Nat
  name : String
  email : String
  password : String
  age : Int
  tokens : List String
  avatar : Option (List Nat)
  createdAt : Nat
  updatedAt : Nat
deriving Repr, DecidableEq

/-- Task record, from the schema in `src/models/task.js`.  `owner` holds the
`_id` of the owning user. -/
structure Task where
  id : Nat
  description : String
  completed : Bool
  owner : Nat
  createdAt : Nat
  updatedAt : Nat
deriving Repr, DecidableEq

/-- The persistent store: the `users` and `tasks` collections. -/
structure Store where
  users : List User
  tasks : List Task
deriving Repr, DecidableEq

/-! ### Models of the external libraries -/

/-- Model of `bcrypt.hash(p, 8)` from the `bcryptjs` library: a
deterministic injective tag-and-scramble encoding, standing for the fact
that a real bcrypt digest is an unreadable string determined by the
password (the random salt is elided; none of the verified properties
depend on it). -/
def bcryptHash (p : String) : String :=
  "$2b$08$" ++ String.mk p.data.reverse

/-- Model of `bcrypt.compare(pass, hash)`: true exactly when `hash` is the
hash of `pass`. -/
def bcryptCompare (pass hash : String) : Bool :=
  bcryptHash pass == hash

/-- Model of `jwt.sign({_id: uid}, secret)` from the `jsonwebtoken`
library: a token embedding the user id, verifiable only with the secret. -/
def jwtSign (uid : Nat) (secret : String) : String :=
  "jwt." ++ toString uid ++ "." ++ secret

/-- Splitting of a character list on `.`, the separator of the token
model. -/
def splitDots (acc : List Char) : List Char → List (List Char)
  | [] => [acc.reverse]
  | c :: cs => if c == '.' then acc.reverse :: splitDots [] cs
               else splitDots (c :: acc) cs

/-- Parsing of a non-empty all-digit character list as a decimal number. -/
def decDigits? (cs : List Char) : Option Nat :=
  if cs.isEmpty then none
  else if cs.all (fun c => c.isDigit) then
    some (cs.foldl (fun a c => a * 10 + (c.toNat - 48)) 0)
  else none

/-- Model of `jwt.verify(token, secret)`: returns the embedded user id when
the token is well formed and signed with `secret`, otherwise fails. -/
def jwtVerify (token secret : String) : Option Nat :=
  match splitDots [] token.data with
  | [tag, uid, sig] =>
      if tag == "jwt".data && sig == secret.data then decDigits? uid
      else none
  | _ => none

/-- Model of JavaScript `parseInt(s)` restricted to its success/failure
behaviour: leading whitespace is skipped, an optional sign is read, then
leading decimal digits; the result is `none` exactly when `parseInt` would
return `NaN` (no leading digits), and `some` of the parsed integer
otherwise. -/
def parseIntJS (s : String) : Option Int :=
  let cs := s.toList.dropWhile Char.isWhitespace
  let (neg, rest) :=
    match cs with
    | '-' :: t => (true, t)
    | '+' :: t => (false, t)
    | t => (false, t)
  let digits := rest.takeWhile Char.isDigit
  if digits.isEmpty then none
  else
    let n : Nat := digits.foldl (fun acc c => acc * 10 + (c.toNat - 48)) 0
    some (if neg then -(n : Int) else (n : Int))

/-- Truthiness of an optional query-string parameter, as JavaScript's
`if (req.query.x)` sees it: absent and the empty string are falsy. -/
def truthy : Option String → Bool
  | none => false
  | some s => s != ""

/-! ### Login (`findByCredentials` in `src/models/user.js` and
`POST /users/login` in `src/routers/userRouter.js`) -/

/-- The two failure cases of `findByCredentials`: the code throws
`Error('Unable to login (email not found)')` when no user has the email and
`Error('Unable to login (password is incorrect)')` when the bcrypt
comparison fails. -/
inductive LoginError where
  | emailNotFound
  | passwordIncorrect
deriving Repr, DecidableEq

/-- The message string carried by each thrown `Error`, verbatim from
`src/models/user.js`. -/
def loginErrorMessage : LoginError → String
  | .emailNotFound => "Unable to login (email not found)"
  | .passwordIncorrect => "Unable to login (password is incorrect)"

/-- `User.findByCredentials(email, pass)` from `src/models/user.js`:
look the user up by email, fail if absent; compare the password against the
stored hash with `bcrypt.compare`, fail if it does not match. -/
def findByCredentials (store : Store) (email pass : String) :
    Except LoginError User :=
  match store.users.find? (fun u => u.email == email) with
  | none => .error .emailNotFound
  | some user =>
      if bcryptCompare pass user.password then .ok user
      else .error .passwordIncorrect

/-- Serialisation of a thrown `Error` by `res.send(e)`.  Express JSON-
stringifies the object, and a JavaScript `Error`'s `message` and `stack`
properties are non-enumerable, so the wire body is the empty object `{}`
for every `Error` — the distinct internal messages of `loginErrorMessage`
never reach the client. -/
def errorToJson (_e : LoginError) : JValue :=
  .obj []

/-- Serialisation of a user by `userSchema.methods.toJSON`, via the full
field list of `user.toObject()`; defined below as erasure of the private
keys, see `toObject` and `userToJSON`. -/
def toObject (u : User) : List (String × JValue) :=
  [("_id", .num u.id),
   ("name", .str u.name),
   ("email", .str u.email),
   ("password", .str u.password),
   ("age", .num u.age),
   ("tokens", .arr (u.tokens.map (fun t => .obj [("token", .str t)]))),
   ("avatar", match u.avatar with
              | none => .null
              | some bs => .arr (bs.map (fun b => .num b))),
   ("createdAt", .num u.createdAt),
   ("updatedAt", .num u.updatedAt)]

/-- Deletion of a key from a serialised object, the effect of JavaScript's
`delete obj.key` on an association list. -/
def eraseKey (k : String) (l : List (String × JValue)) :
    List (String × JValue) :=
  l.filter (fun p => p.1 != k)

/-- `userSchema.methods.toJSON` from `src/models/user.js`: copy the record
to a plain object and delete `password`, `tokens` and `avatar` from the
copy. -/
def userToJSON (u : User) : List (String × JValue) :=
  eraseKey "avatar" (eraseKey "tokens" (eraseKey "password" (toObject u)))

/-- The serialised user as a JSON body. -/
def userJson (u : User) : JValue :=
  .obj (userToJSON u)

/-- `userSchema.methods.generateAuthToken`: sign a token embedding the
user's id, append it to the user's token list, persist the user, return the
updated store together with the token. -/
def generateAuthToken (store : Store) (u : User) (secret : String) :
    Store × User × String :=
  let token := jwtSign u.id secret
  let u' := { u with tokens := u.tokens ++ [token] }
  ({ store with
     users := store.users.map (fun x => if x.id == u.id then u' else x) },
   u', token)

/-- `POST /users/login` from `src/routers/userRouter.js`: find the user by
credentials, issue a token, answer 200 with `{user, newToken}`; on a thrown
`LoginError`, answer 400 with the serialised error. -/
def loginHandler (store : Store) (secret : String) (email pass : String) :
    Store × Response :=
  match findByCredentials store email pass with
  | .error e => (store, ⟨400, errorToJson e⟩)
  | .ok user =>
      let (store', user', token) := generateAuthToken store user secret
      (store', ⟨200, .obj [("user", userJson user'), ("newToken", .str token)]⟩)

/-! ### Auth middleware (`src/middleware/auth.js`) -/

/-- Removal of the first occurrence of a pattern from a character list,
the effect of JavaScript's `String.prototype.replace` with a string
pattern and an empty replacement. -/
def removeFirstOcc (pat : List Char) : List Char → List Char
  | [] => []
  | c :: cs =>
      if (c :: cs).take pat.length == pat then (c :: cs).drop pat.length
      else c :: removeFirstOcc pat cs

/-- Token extraction, `req.header('Authorization').replace('Bearer ', '')`:
when the header is absent, `req.header` yields `undefined` and the
`.replace` call throws inside the `try`, so extraction fails; otherwise the
first occurrence of `Bearer ` is removed. -/
def extractToken : Option String → Option String
  | none => none
  | some h => some (String.mk (removeFirstOcc "Bearer ".data h.data))

/-- The body of the single failure response of the middleware,
`res.status(401).send({ error: 'Authentication failed' })`. -/
def authFailResponse : Response :=
  ⟨401, .obj [("error", .str "Authentication failed")]⟩

/-- The checks of the `auth` middleware in order: extract the token, verify
it with `jwt.verify`, then `User.findOne({_id: decoded._id, 'tokens.token':
token})` — one combined lookup by id and token membership.  Any failing
step yields `none`; the `catch` turns every `none` into the same 401. -/
def authCheck (store : Store) (secret : String) (authHeader : Option String) :
    Option (User × String) :=
  match extractToken authHeader with
  | none => none
  | some token =>
      match jwtVerify token secret with
      | none => none
      | some uid =>
          match store.users.find?
              (fun u => u.id == uid && u.tokens.contains token) with
          | none => none
          | some u => some (u, token)

/-- A protected route: the middleware runs first; on any failure it answers
`authFailResponse` and the handler never runs; on success it attaches the
resolved user and raw token (`req.user`, `req.token`) and calls `next()`,
running the handler. -/
def protect (secret : String)
    (handler : User → String → Store → Store × Response)
    (store : Store) (authHeader : Option String) : Store × Response :=
  match authCheck store secret authHeader with
  | none => (store, authFailResponse)
  | some (u, t) => handler u t store

/-! ### Task query engine (`GET /tasks` in the task router) -/

/-- The query parameters of `GET /tasks`, each as the raw optional query
string. -/
structure ListQuery where
  completed : Option String
  sortBy : Option String
  limit : Option String
  skip : Option String
deriving Repr

/-- Comparison of two tasks on a named schema field, the sort key the
MongoDB engine uses for `sort: {field: dir}`.  Sorting on a field no task
document carries compares every pair equal (the pipeline leaves the order
alone). -/
def fieldOrd (field : String) (a b : Task) : Ordering :=
  if field == "createdAt" then compare a.createdAt b.createdAt
  else if field == "updatedAt" then compare a.updatedAt b.updatedAt
  else if field == "description" then compare a.description b.description
  else if field == "completed" then
    compare (if a.completed then (1 : Nat) else 0)
      (if b.completed then (1 : Nat) else 0)
  else if field == "_id" then compare a.id b.id
  else .eq

/-- The `le` relation the sort uses: ascending for direction `1`,
descending for direction `-1` (`sort[parts[0]] = parts[1] === 'desc' ? -1 :
1`). -/
def sortLE (field : String) (dir : Int) (a b : Task) : Bool :=
  if dir < 0 then fieldOrd field a b != Ordering.lt
  else fieldOrd field a b != Ordering.gt

/-- Insertion of a task into a sorted list, the auxiliary step of the model
of the database sort. -/
def insertSorted (le : Task → Task → Bool) (t : Task) :
    List Task → List Task
  | [] => [t]
  | x :: xs => if le t x then t :: x :: xs else x :: insertSorted le t xs

/-- Model of the MongoDB sort stage: a sort of the result list by the given
relation.  Only the ordering contract matters to the specification; the
concrete algorithm is insertion sort. -/
def insertionSort (le : Task → Task → Bool) : List Task → List Task
  | [] => []
  | x :: xs => insertSorted le x (insertionSort le xs)

/-- The sort option of `GET /tasks`: when `sortBy` is truthy it is split on
`_`; the first part names the field and the second gives the direction,
`desc` meaning `-1` and anything else (including a missing part) `1`. -/
def applySort (sb : Option String) (l : List Task) : List Task :=
  if truthy sb then
    let parts := (sb.getD "").splitOn "_"
    let dir : Int := if parts.getD 1 "" == "desc" then -1 else 1
    insertionSort (sortLE (parts.headD "") dir) l
  else l

/-- The skip stage: `skip: parseInt(req.query.skip)`.  A `none` (absent
parameter, or `parseInt` returned `NaN`) is ignored by the driver; negative
values are not exercised by any handler contract and are modelled as no
skip. -/
def applySkip (n : Option Int) (l : List Task) : List Task :=
  match n with
  | none => l
  | some k => l.drop k.toNat

/-- The limit stage: `limit: parseInt(req.query.limit)`.  A `none` is
ignored by the driver, and `limit(0)` means no limit in MongoDB. -/
def applyLimit (n : Option Int) (l : List Task) : List Task :=
  match n with
  | none => l
  | some k => if k ≤ 0 then l else l.take k.toNat

/-- `GET /tasks`: populate the `tasks` virtual of the caller — tasks whose
`owner` equals the caller's `_id` — filtered by the `completed` match when
that query parameter is truthy (`match.completed = req.query.completed ===
'true'`), then sorted, skipped and limited. -/
def listTasks (store : Store) (u : User) (q : ListQuery) : List Task :=
  let owned := store.tasks.filter (fun t => t.owner == u.id)
  let matched :=
    if truthy q.completed then
      owned.filter (fun t => t.completed == (q.completed.getD "" == "true"))
    else owned
  applyLimit (q.limit.bind parseIntJS)
    (applySkip (q.skip.bind parseIntJS) (applySort q.sortBy matched))

/-! ### Task handlers (`src/middleware/auth.js`, task router part) -/

/-- Serialised task, the body of a task response. -/
def taskJson (t : Task) : JValue :=
  .obj [("_id", .num t.id),
        ("description", .str t.description),
        ("completed", .bool t.completed),
        ("owner", .num t.owner),
        ("createdAt", .num t.createdAt),
        ("updatedAt", .num t.updatedAt)]

/-- `Task.findOne({_id: id, owner: owner})`: the first task matching both
the id and the owner. -/
def taskFindOne (store : Store) (id owner : Nat) : Option Task :=
  store.tasks.find? (fun t => t.id == id && t.owner == owner)

/-- The sends attempted by `GET /tasks/:id`.  The not-found branch lacks a
`return`, so after `res.status(404).send()` the handler falls through and
attempts `res.send(task)` with `task` null; Express has already committed
the first response, so only the head of this list reaches the client. -/
def getTaskSends (store : Store) (u : User) (id : Nat) : List Response :=
  match taskFindOne store id u.id with
  | none => [⟨404, .null⟩, ⟨200, .null⟩]
  | some t => [⟨200, taskJson t⟩]

/-- The client-visible response of `GET /tasks/:id`: the first committed
send. -/
def getTaskHandler (store : Store) (u : User) (id : Nat) : Response :=
  (getTaskSends store u id).headD ⟨200, .null⟩

/-- Removal of the first task matching id and owner, the effect of
`Task.findOneAndDelete` on the collection. -/
def eraseFirstTask (id owner : Nat) : List Task → List Task
  | [] => []
  | t :: ts =>
      if t.id == id && t.owner == owner then ts
      else t :: eraseFirstTask id owner ts

/-- `DELETE /tasks/:id`: `Task.findOneAndDelete({_id, owner})`; 404 when no
task matches, otherwise 200 with the deleted task. -/
def deleteTaskHandler (store : Store) (u : User) (id : Nat) :
    Store × Response :=
  match taskFindOne store id u.id with
  | none => (store, ⟨404, .null⟩)
  | some t =>
      ({ store with tasks := eraseFirstTask id u.id store.tasks },
       ⟨200, taskJson t⟩)

/-- Model of the Mongoose `String` cast used when a request-body value is
assigned to a string path: strings pass through, numbers and booleans are
stringified, anything else raises a `CastError` at save time. -/
def JValue.castString : JValue → Option String
  | .str s => some s
  | .num n => some (toString n)
  | .bool b => some (if b then "true" else "false")
  | _ => none

/-- Model of the Mongoose `Boolean` cast: booleans pass through, the
strings and numbers Mongoose recognises are converted, anything else raises
a `CastError` at save time. -/
def JValue.castBool : JValue → Option Bool
  | .bool b => some b
  | .str "true" => some true
  | .str "false" => some false
  | .num 1 => some true
  | .num 0 => some false
  | _ => none

/-- Model of the Mongoose `Number` cast: numbers pass through, numeric
strings are converted, booleans become 0/1, anything else raises a
`CastError` at save time. -/
def JValue.castNum : JValue → Option Int
  | .num n => some n
  | .str s => s.toInt?
  | .bool b => some (if b then 1 else 0)
  | _ => none

/-- The allowlist of `PATCH /tasks/:id`. -/
def allowedTaskUpdates : List String := ["description", "completed"]

/-- The allowlist of `PATCH /users/me`. -/
def allowedUserUpdates : List String := ["name", "email", "password", "age"]

/-- One step of `updates.forEach((update) => { task[update] =
req.body[update] })`: assign the body value to the named schema path, with
the cast the schema performs (`description` is trimmed by its `trim: true`
setter).  A key outside the schema is never reached past the allowlist
check. -/
def applyTaskUpdate (t : Task) (kv : String × JValue) : Option Task :=
  if kv.1 == "description" then
    kv.2.castString.map (fun s => { t with description := s.trim })
  else if kv.1 == "completed" then
    kv.2.castBool.map (fun b => { t with completed := b })
  else some t

/-- The whole `forEach` over the body's key/value pairs; a failing cast
surfaces as the save throwing, hence `none`. -/
def applyTaskUpdates (t : Task) (body : List (String × JValue)) :
    Option Task :=
  body.foldlM applyTaskUpdate t

/-- Validation `task.save()` runs: `description` is `required` (a required
string must be non-empty). -/
def validTask (t : Task) : Bool :=
  t.description != ""

/-- Persisting a saved task document: the collection entry with its `_id`
is replaced (MongoDB `_id` is unique). -/
def persistTask (store : Store) (t : Task) : Store :=
  { store with
    tasks := store.tasks.map (fun x => if x.id == t.id then t else x) }

/-- `PATCH /tasks/:id`: reject any body key outside the allowlist with 400
before touching the store; then look the task up by `{_id, owner}` (404
when absent); apply the updates and save, a cast or validation error
answering 400 with the serialised error (elided to `{}` here), success
answering 200 with the updated task. -/
def patchTaskHandler (store : Store) (u : User) (id : Nat)
    (body : List (String × JValue)) : Store × Response :=
  let updates := body.map (fun kv => kv.1)
  if !(updates.all (fun k => allowedTaskUpdates.contains k)) then
    (store, ⟨400, .obj [("error",
      .str "You are trying to update a Task property that is not allowed or doesn't exist")]⟩)
  else
    match taskFindOne store id u.id with
    | none => (store, ⟨404, .obj [("error", .str "User not found")]⟩)
    | some t =>
        match applyTaskUpdates t body with
        | none => (store, ⟨400, .obj []⟩)
        | some t' =>
            if validTask t' then (persistTask store t', ⟨200, taskJson t'⟩)
            else (store, ⟨400, .obj []⟩)

/-! ### User handlers (`src/routers/userRouter.js`) -/

/-- Character-wise lower-casing, JavaScript's `toLowerCase` on the ASCII
range. -/
def lowerChars : List Char → List Char
  | [] => []
  | c :: cs => c.toLower :: lowerChars cs

/-- Substring test used by the password validator (`value.toLowerCase()
.includes('password')`). -/
def containsSubstr (hay needle : String) : Bool :=
  (List.range (hay.data.length + 1)).any
    (fun i => (hay.data.drop i).take needle.data.length == needle.data)

/-- Model of `validator.isEmail`, reduced to the only structure the claims
exercise: the string carries an `@`. -/
def isEmailModel (s : String) : Bool :=
  s.toList.contains '@'

/-- Validation `user.save()` runs, from the schema in
`src/models/user.js`: `name` and `email` required, email format valid,
password required with `minlength: 7` and free of the substring `password`
case-insensitively, age non-negative.  Mongoose validates before the
pre-save hook, so the password checked here is the value as assigned. -/
def validUser (u : User) : Bool :=
  u.name != "" &&
  u.email != "" && isEmailModel u.email &&
  u.password != "" && decide (u.password.length ≥ 7) &&
  !(containsSubstr (String.mk (lowerChars u.password.data)) "password") &&
  decide (u.age ≥ 0)

/-- One step of `updates.forEach((update) => { user[update] =
req.body[update] })`, with the schema setters: `trim` on the three string
paths and `lowercase` on `email`. -/
def applyUserUpdate (u : User) (kv : String × JValue) : Option User :=
  if kv.1 == "name" then
    kv.2.castString.map (fun s => { u with name := s.trim })
  else if kv.1 == "email" then
    kv.2.castString.map
      (fun s => { u with email := String.mk (lowerChars s.trim.data) })
  else if kv.1 == "password" then
    kv.2.castString.map (fun s => { u with password := s.trim })
  else if kv.1 == "age" then
    kv.2.castNum.map (fun n => { u with age := n })
  else some u

/-- The whole `forEach` over the body's key/value pairs for the user
patch. -/
def applyUserUpdates (u : User) (body : List (String × JValue)) :
    Option User :=
  body.foldlM applyUserUpdate u

/-- The `pre('save')` hook: hash the password with bcrypt when the path was
modified; assigning an unchanged value leaves the path unmodified. -/
def preSaveHash (old upd : User) : User :=
  if upd.password != old.password then
    { upd with password := bcryptHash upd.password }
  else upd

/-- Persisting a saved user document: the collection entry with its `_id`
is replaced. -/
def persistUser (store : Store) (u : User) : Store :=
  { store with
    users := store.users.map (fun x => if x.id == u.id then u else x) }

/-- `PATCH /users/me`: reject any body key outside the allowlist with 400
before touching the store; otherwise assign the allowed fields on
`req.user`, save (validation then the hashing hook), and answer 200 with
the saved user; a cast or validation error answers 400. -/
def patchUserHandler (store : Store) (u : User)
    (body : List (String × JValue)) : Store × Response :=
  let updates := body.map (fun kv => kv.1)
  if !(updates.all (fun k => allowedUserUpdates.contains k)) then
    (store, ⟨400, .obj [("error",
      .str "You are trying to update a User property that is not allowed or doesn't exist")]⟩)
  else
    match applyUserUpdates u body with
    | none => (store, ⟨400, .obj []⟩)
    | some u' =>
        if validUser u' then
          let u'' := preSaveHash u u'
          (persistUser store u'', ⟨200, userJson u''⟩)
        else (store, ⟨400, .obj []⟩)

/-- `GET /users/me`: answer the serialised `req.user`; nothing is written
back to the store. -/
def getMeHandler (store : Store) (u : User) : Store × Response :=
  (store, ⟨200, userJson u⟩)

/-- `DELETE /users/me/avatar`: set `req.user.avatar = undefined`, save,
answer the success string.  The route has no failure branch. -/
def deleteAvatarHandler (store : Store) (u : User) : Store × Response :=
  (persistUser store { u with avatar := none },
   ⟨200, .str "Successfully deleted your avatar"⟩)

/-- `user.remove()` together with the `pre('remove')` hook of
`src/models/user.js`: `Task.deleteMany({owner: user._id})` removes every
task owned by the user, then the user document itself is removed. -/
def userRemove (store : Store) (u : User) : Store :=
  { users := store.users.filter (fun x => x.id != u.id),
    tasks := store.tasks.filter (fun t => t.owner != u.id) }

/-- `DELETE /users/me`: remove `req.user` (cascading to the owned tasks via
the hook) and answer 200 with the serialised deleted user. -/
def deleteUserHandler (store : Store) (u : User) : Store × Response :=
  (userRemove store u, ⟨200, userJson u⟩)

/-! ### Concrete fixtures used by the witnesses -/

/-- Concrete registered user for the witnesses: Ann, with the stored hash
of `secret123` and one live session token. -/
def wAnn : User :=
  ⟨1, "Ann", "ann@mail.com", bcryptHash "secret123", 0, [jwtSign 1 "k"],
   none, 0, 0⟩

/-- Concrete one-user store for the witnesses. -/
def wStore : Store := ⟨[wAnn], []⟩

/-- Concrete protected handler for the C2 witness: answer the resolved
user. -/
def wHandler : User → String → Store → Store × Response :=
  fun u _ s => (s, ⟨200, userJson u⟩)

/-- Concrete completed task owned by Ann. -/
def wTaskA : Task := ⟨10, "buy milk", true, 1, 0, 0⟩

/-- Concrete open task owned by Ann. -/
def wTaskB : Task := ⟨11, "write report", false, 1, 0, 0⟩

/-- Concrete task owned by another user (id 2). -/
def wBobTask : Task := ⟨5, "plan surprise party", false, 2, 0, 0⟩

/-- Concrete store with Ann and three tasks, two of them hers. -/
def wStoreTasks : Store := ⟨[wAnn], [wTaskA, wTaskB, wBobTask]⟩

/-! ### Helper lemmas -/

/-- A map whose function fixes every element of the list is the
identity. -/
theorem map_self_of_eq {α : Type} {f : α → α} {l : List α}
    (h : ∀ x ∈ l, f x = x) : l.map f = l :=
  (List.map_congr_left (fun a ha => (h a ha).trans rfl)).trans (List.map_id l)

/-- Membership through one insertion step of the sort model. -/
theorem mem_insertSorted {le : Task → Task → Bool} {t a : Task}
    {l : List Task} : a ∈ insertSorted le t l ↔ a = t ∨ a ∈ l := by
  induction l with
  | nil => simp [insertSorted]
  | cons x xs ih =>
      by_cases hle : le t x = true
      · simp [insertSorted, hle]
      · simp only [insertSorted, hle, Bool.false_eq_true, if_false,
          List.mem_cons, ih]
        tauto

/-- The sort model permutes: membership is preserved. -/
theorem mem_insertionSort {le : Task → Task → Bool} {a : Task}
    {l : List Task} : a ∈ insertionSort le l ↔ a ∈ l := by
  induction l with
  | nil => simp [insertionSort]
  | cons x xs ih =>
      simp [insertionSort, mem_insertSorted, ih]

/-- Membership through the sort stage. -/
theorem mem_applySort {sb : Option String} {a : Task} {l : List Task} :
    a ∈ applySort sb l ↔ a ∈ l := by
  by_cases h : truthy sb = true
  · simp [applySort, h, mem_insertionSort]
  · simp [applySort, h]

/-- The skip stage only drops elements. -/
theorem mem_applySkip {n : Option Int} {a : Task} {l : List Task}
    (h : a ∈ applySkip n l) : a ∈ l := by
  cases n with
  | none => exact h
  | some k => exact List.drop_subset _ l h

/-- The limit stage only drops elements. -/
theorem mem_applyLimit {n : Option Int} {a : Task} {l : List Task}
    (h : a ∈ applyLimit n l) : a ∈ l := by
  cases n with
  | none => exact h
  | some k =>
      simp only [applyLimit] at h
      by_cases hk : k ≤ 0
      · simpa [hk] using h
      · exact List.take_subset _ l (by simpa [hk] using h)

/-- Every task the query engine returns came from the completed-match
filter over the caller's owned tasks. -/
theorem mem_listTasks {store : Store} {u : User} {q : ListQuery} {t : Task}
    (h : t ∈ listTasks store u q) :
    t ∈ (if truthy q.completed then
          (store.tasks.filter (fun x => x.owner == u.id)).filter
            (fun x => x.completed == (q.completed.getD "" == "true"))
         else store.tasks.filter (fun x => x.owner == u.id)) := by
  simp only [listTasks] at h
  exact mem_applySort.mp (mem_applySkip (mem_applyLimit h))

/-- The sort stage of an empty result is empty. -/
theorem applySort_nil (sb : Option String) : applySort sb [] = [] := by
  by_cases h : truthy sb = true <;> simp [applySort, h, insertionSort]

/-- The skip stage of an empty result is empty. -/
theorem applySkip_nil (n : Option Int) : applySkip n [] = [] := by
  cases n <;> simp [applySkip]

/-- The limit stage of an empty result is empty. -/
theorem applyLimit_nil (n : Option Int) : applyLimit n [] = [] := by
  cases n <;> simp [applyLimit]

/-- A caller owning no stored task gets the empty list from the query
engine, whatever the query parameters. -/
theorem listTasks_eq_nil {store : Store} {u : User} {q : ListQuery}
    (h : store.tasks.filter (fun t => t.owner == u.id) = []) :
    listTasks store u q = [] := by
  simp only [listTasks, h, List.filter_nil, ite_self, applySort_nil,
    applySkip_nil, applyLimit_nil]

/-- Saving the same user document twice in a row persists the same
store. -/
theorem persistUser_idem (store : Store) (v : User) :
    persistUser (persistUser store v) v = persistUser store v := by
  show Store.mk
      ((store.users.map (fun x => if x.id == v.id then v else x)).map
        (fun x => if x.id == v.id then v else x))
      store.tasks =
    Store.mk (store.users.map (fun x => if x.id == v.id then v else x))
      store.tasks
  rw [List.map_map]
  exact congrArg (fun l => Store.mk l store.tasks)
    (List.map_congr_left (fun a _ => by
      by_cases h : (a.id == v.id) = true <;> simp [Function.comp, h]))

/-! ### C1 -/

/-- C1: a login with an unregistered email and a login with a registered
email but mismatched password both fail with status 400, leave the store
unchanged, and produce literally identical responses — the client cannot
tell which factor failed. -/
theorem login_failure_indistinguishable
    (store : Store) (secret e1 p1 e2 p2 : String)
    (h1 : store.users.find? (fun u => u.email == e1) = none)
    (h2 : ∃ u, store.users.find? (fun u => u.email == e2) = some u ∧
          bcryptCompare p2 u.password = false) :
    loginHandler store secret e1 p1 = loginHandler store secret e2 p2 ∧
    (loginHandler store secret e1 p1).2.status = 400 ∧
    (loginHandler store secret e1 p1).1 = store := by
  obtain ⟨u, hu, hcmp⟩ := h2
  simp [loginHandler, findByCredentials, h1, hu, hcmp, errorToJson]

/-- Witness for C1: in `wStore`, logging in with an unknown email and
logging in with Ann's email but a wrong password give literally the same
400 response. -/
theorem login_failure_indistinguishable_witness :
    loginHandler wStore "k" "bob@mail.com" "secret123" =
      loginHandler wStore "k" "ann@mail.com" "wrongpass" ∧
    (loginHandler wStore "k" "bob@mail.com" "secret123").2.status = 400 ∧
    (loginHandler wStore "k" "bob@mail.com" "secret123").1 = wStore :=
  login_failure_indistinguishable wStore "k" "bob@mail.com" "secret123"
    "ann@mail.com" "wrongpass" (by decide) ⟨wAnn, by decide, by decide⟩

/-! ### C2 -/

/-- C2: every failure mode of the auth middleware — missing header,
token that does not verify, and no stored user carrying both the decoded
id and the token — makes the combined check fail, every failed check
produces the one 401 `Authentication failed` response with the store
untouched, and the protected handler runs exactly when the check
succeeds. -/
theorem auth_failures_collapse
    (store : Store) (secret : String) (hdr : Option String)
    (handler : User → String → Store → Store × Response) :
    (authCheck store secret hdr = none →
      protect secret handler store hdr = (store, authFailResponse)) ∧
    (hdr = none → authCheck store secret hdr = none) ∧
    (∀ t, extractToken hdr = some t → jwtVerify t secret = none →
      authCheck store secret hdr = none) ∧
    (∀ t uid, extractToken hdr = some t → jwtVerify t secret = some uid →
      (∀ u ∈ store.users, u.id ≠ uid ∨ t ∉ u.tokens) →
      authCheck store secret hdr = none) ∧
    authFailResponse.status = 401 ∧
    (∀ u t, authCheck store secret hdr = some (u, t) →
      protect secret handler store hdr = handler u t store) := by
  refine ⟨fun h => by simp [protect, h], fun h => by simp [authCheck, h, extractToken],
    fun t het hver => by simp [authCheck, het, hver],
    fun t uid het hver hno => ?_, rfl,
    fun u t h => by simp [protect, h]⟩
  have hfind : store.users.find?
      (fun u => u.id == uid && u.tokens.contains t) = none := by
    rw [List.find?_eq_none]
    intro x hx
    rcases hno x hx with h | h
    · simp [h]
    · simp [h]
  simp only [authCheck, het, hver, hfind]

/-- Witness for C2: against `wStore`, a request with no header, one with
an unverifiable token, and one with a token signed for a non-existent user
all get the one 401 response, and Ann's good token reaches the handler. -/
theorem auth_failures_collapse_witness :
    protect "k" wHandler wStore none = (wStore, authFailResponse) ∧
    protect "k" wHandler wStore (some "Bearer garbage") =
      (wStore, authFailResponse) ∧
    protect "k" wHandler wStore (some ("Bearer " ++ jwtSign 2 "k")) =
      (wStore, authFailResponse) ∧
    authFailResponse.status = 401 ∧
    protect "k" wHandler wStore (some ("Bearer " ++ jwtSign 1 "k")) =
      wHandler wAnn (jwtSign 1 "k") wStore := by
  refine ⟨(auth_failures_collapse wStore "k" none wHandler).1 (by decide),
    (auth_failures_collapse wStore "k" _ wHandler).1 (by decide),
    (auth_failures_collapse wStore "k" _ wHandler).1 ?_, rfl,
    (auth_failures_collapse wStore "k" _ wHandler).2.2.2.2.2 wAnn
      (jwtSign 1 "k") (by decide)⟩
  exact (auth_failures_collapse wStore "k" _ wHandler).2.2.2.1
    (jwtSign 2 "k") 2 (by decide) (by decide) (by decide)

/-! ### C3 -/

/-- C3: when no stored task carries both the requested id and the caller
as owner — in particular when a task with that id belongs to someone
else — fetching answers 404, deleting answers 404 leaving the store
unchanged, and updating with an allowlisted body answers 404 leaving the
store unchanged; a non-owner cannot tell such a task from a nonexistent
one. -/
theorem task_ops_owner_scoped
    (store : Store) (caller : User) (id : Nat)
    (h : ∀ t ∈ store.tasks, ¬(t.id = id ∧ t.owner = caller.id)) :
    getTaskHandler store caller id = ⟨404, .null⟩ ∧
    deleteTaskHandler store caller id = (store, ⟨404, .null⟩) ∧
    ∀ body : List (String × JValue),
      ((body.map (fun kv => kv.1)).all
        (fun k => allowedTaskUpdates.contains k)) = true →
      patchTaskHandler store caller id body =
        (store, ⟨404, .obj [("error", .str "User not found")]⟩) := by
  have hfind : taskFindOne store id caller.id = none := by
    rw [taskFindOne, List.find?_eq_none]
    intro x hx
    have hx' := h x hx
    simp only [Bool.and_eq_true, beq_iff_eq]
    tauto
  refine ⟨by simp [getTaskHandler, getTaskSends, hfind],
    by simp [deleteTaskHandler, hfind], fun body hb => ?_⟩
  simp only [patchTaskHandler]
  rw [hb]
  simp [hfind]

/-- Witness for C3: task 5 exists in `wStoreTasks` but belongs to user 2;
for Ann all three operations answer 404 and nothing changes. -/
theorem task_ops_owner_scoped_witness :
    getTaskHandler wStoreTasks wAnn 5 = ⟨404, .null⟩ ∧
    deleteTaskHandler wStoreTasks wAnn 5 = (wStoreTasks, ⟨404, .null⟩) ∧
    patchTaskHandler wStoreTasks wAnn 5 [("completed", .bool true)] =
      (wStoreTasks, ⟨404, .obj [("error", .str "User not found")]⟩) :=
  ⟨(task_ops_owner_scoped wStoreTasks wAnn 5 (by decide)).1,
   (task_ops_owner_scoped wStoreTasks wAnn 5 (by decide)).2.1,
   (task_ops_owner_scoped wStoreTasks wAnn 5 (by decide)).2.2
     [("completed", .bool true)] (by decide)⟩

/-! ### C4 -/

/-- C4: a user-profile update whose body carries a key outside
`name, email, password, age`, and a task update whose body carries a key
outside `description, completed`, both fail with status 400 and leave the
store exactly as it was — nothing is applied. -/
theorem disallowed_update_rejected
    (store : Store) (u : User) (id : Nat) (body : List (String × JValue)) :
    ((∃ k ∈ body.map (fun kv => kv.1), allowedUserUpdates.contains k = false) →
      patchUserHandler store u body =
        (store, ⟨400, .obj [("error",
          .str "You are trying to update a User property that is not allowed or doesn't exist")]⟩)) ∧
    ((∃ k ∈ body.map (fun kv => kv.1), allowedTaskUpdates.contains k = false) →
      patchTaskHandler store u id body =
        (store, ⟨400, .obj [("error",
          .str "You are trying to update a Task property that is not allowed or doesn't exist")]⟩)) := by
  constructor
  · intro hk
    have hall : ((body.map (fun kv => kv.1)).all
        (fun k => allowedUserUpdates.contains k)) = false := by
      rw [List.all_eq_false]
      obtain ⟨k, hk1, hk2⟩ := hk
      exact ⟨k, hk1, by rw [hk2]; exact Bool.false_ne_true⟩
    simp only [patchUserHandler]
    rw [hall]
    simp
  · intro hk
    have hall : ((body.map (fun kv => kv.1)).all
        (fun k => allowedTaskUpdates.contains k)) = false := by
      rw [List.all_eq_false]
      obtain ⟨k, hk1, hk2⟩ := hk
      exact ⟨k, hk1, by rw [hk2]; exact Bool.false_ne_true⟩
    simp only [patchTaskHandler]
    rw [hall]
    simp

/-- Witness for C4: a body setting `owner` is rejected with 400 by both
patch routes, and `wStoreTasks` is untouched. -/
theorem disallowed_update_rejected_witness :
    patchUserHandler wStoreTasks wAnn [("owner", .num 99)] =
      (wStoreTasks, ⟨400, .obj [("error",
        .str "You are trying to update a User property that is not allowed or doesn't exist")]⟩) ∧
    patchTaskHandler wStoreTasks wAnn 10 [("owner", .num 99)] =
      (wStoreTasks, ⟨400, .obj [("error",
        .str "You are trying to update a Task property that is not allowed or doesn't exist")]⟩) :=
  ⟨(disallowed_update_rejected wStoreTasks wAnn 10 [("owner", .num 99)]).1
     ⟨"owner", by decide, by decide⟩,
   (disallowed_update_rejected wStoreTasks wAnn 10 [("owner", .num 99)]).2
     ⟨"owner", by decide, by decide⟩⟩

/-! ### C5 -/

/-- C5: every task the list endpoint returns belongs to the caller,
whatever the query; with no query parameters at all the result is exactly
the caller's tasks, completed or not; and with `completed=true` every
returned task is a completed task of the caller. -/
theorem list_tasks_owner_and_filter (store : Store) (u : User) :
    (∀ (q : ListQuery) (t : Task), t ∈ listTasks store u q →
      t.owner = u.id) ∧
    (listTasks store u ⟨none, none, none, none⟩ =
      store.tasks.filter (fun t => t.owner == u.id)) ∧
    (∀ (q : ListQuery) (t : Task), q.completed = some "true" →
      t ∈ listTasks store u q → t.completed = true ∧ t.owner = u.id) := by
  refine ⟨fun q t ht => ?_, rfl, fun q t hq ht => ?_⟩
  · have h1 : t ∈ store.tasks.filter (fun x => x.owner == u.id) := by
      have h' := mem_listTasks ht
      by_cases hc : truthy q.completed = true
      · rw [if_pos hc] at h'
        exact (List.mem_filter.mp h').1
      · rwa [if_neg hc] at h'
    exact beq_iff_eq.mp (List.mem_filter.mp h1).2
  · have h' := mem_listTasks ht
    rw [hq] at h'
    simp only [truthy] at h'
    rw [if_pos (by decide)] at h'
    have h2 := List.mem_filter.mp h'
    have h3 := List.mem_filter.mp h2.1
    refine ⟨?_, beq_iff_eq.mp h3.2⟩
    have := h2.2
    simpa using this

/-- Witness for C5: in `wStoreTasks` the unfiltered listing for Ann is
exactly her two tasks, a paginated listing only yields her tasks, and the
`completed=true` listing yields only completed tasks of hers. -/
theorem list_tasks_owner_and_filter_witness :
    listTasks wStoreTasks wAnn ⟨none, none, none, none⟩ = [wTaskA, wTaskB] ∧
    wTaskB.owner = wAnn.id ∧
    (wTaskA.completed = true ∧ wTaskA.owner = wAnn.id) :=
  ⟨((list_tasks_owner_and_filter wStoreTasks wAnn).2.1).trans (by decide),
   (list_tasks_owner_and_filter wStoreTasks wAnn).1
     ⟨none, none, some "1", some "1"⟩ wTaskB (by decide),
   (list_tasks_owner_and_filter wStoreTasks wAnn).2.2
     ⟨some "true", none, none, none⟩ wTaskA rfl (by decide)⟩

/-! ### C6 -/

/-- C6: a `limit` or `skip` query value on which `parseInt` yields `NaN`
produces exactly the listing obtained with that parameter absent — no
error, no different page. -/
theorem nonnumeric_pagination_ignored
    (store : Store) (u : User) (q : ListQuery) (s : String)
    (h : parseIntJS s = none) :
    listTasks store u { q with limit := some s } =
      listTasks store u { q with limit := none } ∧
    listTasks store u { q with skip := some s } =
      listTasks store u { q with skip := none } := by
  constructor <;> simp [listTasks, h]

/-- Witness for C6: `limit=abc` and `skip=abc` give Ann the same listing
as no limit and no skip. -/
theorem nonnumeric_pagination_ignored_witness :
    listTasks wStoreTasks wAnn
        { (⟨none, none, none, none⟩ : ListQuery) with limit := some "abc" } =
      listTasks wStoreTasks wAnn
        { (⟨none, none, none, none⟩ : ListQuery) with limit := none } ∧
    listTasks wStoreTasks wAnn
        { (⟨none, none, none, none⟩ : ListQuery) with skip := some "abc" } =
      listTasks wStoreTasks wAnn
        { (⟨none, none, none, none⟩ : ListQuery) with skip := none } :=
  nonnumeric_pagination_ignored wStoreTasks wAnn ⟨none, none, none, none⟩
    "abc" (by decide)

/-! ### C7 -/

/-- C7: deleting an account answers 200 and removes every task owned by
the deleted user — afterwards the stored tasks contain none with that
owner, and the query engine returns the empty list for that owner id
whatever the query parameters. -/
theorem user_delete_cascades (store : Store) (u : User) :
    (deleteUserHandler store u).2.status = 200 ∧
    ((deleteUserHandler store u).1.tasks.filter
      (fun t => t.owner == u.id)) = [] ∧
    (∀ (q : ListQuery) (caller : User), caller.id = u.id →
      listTasks (deleteUserHandler store u).1 caller q = []) := by
  have hnil : ((deleteUserHandler store u).1.tasks.filter
      (fun t => t.owner == u.id)) = [] := by
    show (store.tasks.filter (fun t => t.owner != u.id)).filter
        (fun t => t.owner == u.id) = []
    rw [List.filter_filter, List.filter_eq_nil_iff]
    intro a _
    by_cases h : a.owner = u.id <;> simp [h]
  refine ⟨rfl, hnil, fun q caller hc => listTasks_eq_nil ?_⟩
  rw [hc]
  exact hnil

/-- Witness for C7: after Ann deletes her account in `wStoreTasks`, no
stored task has her as owner and her task listing is empty. -/
theorem user_delete_cascades_witness :
    (deleteUserHandler wStoreTasks wAnn).2.status = 200 ∧
    ((deleteUserHandler wStoreTasks wAnn).1.tasks.filter
      (fun t => t.owner == wAnn.id)) = [] ∧
    listTasks (deleteUserHandler wStoreTasks wAnn).1 wAnn
      ⟨none, none, none, none⟩ = [] :=
  ⟨(user_delete_cascades wStoreTasks wAnn).1,
   (user_delete_cascades wStoreTasks wAnn).2.1,
   (user_delete_cascades wStoreTasks wAnn).2.2 ⟨none, none, none, none⟩
     wAnn rfl⟩

/-! ### C8 -/

/-- C8: the serialised user omits exactly `password`, `tokens` and
`avatar` — the remaining keys are the other schema fields, each looked up
to the record's own value — and answering `GET /users/me` leaves the
store as it was. -/
theorem user_serialization_omits_private (store : Store) (u : User) :
    ((userToJSON u).map Prod.fst =
      ["_id", "name", "email", "age", "createdAt", "updatedAt"]) ∧
    (∀ p ∈ userToJSON u,
      p.1 ≠ "password" ∧ p.1 ≠ "tokens" ∧ p.1 ≠ "avatar") ∧
    List.lookup "_id" (userToJSON u) = some (.num u.id) ∧
    List.lookup "name" (userToJSON u) = some (.str u.name) ∧
    List.lookup "email" (userToJSON u) = some (.str u.email) ∧
    List.lookup "age" (userToJSON u) = some (.num u.age) ∧
    List.lookup "createdAt" (userToJSON u) = some (.num u.createdAt) ∧
    List.lookup "updatedAt" (userToJSON u) = some (.num u.updatedAt) ∧
    getMeHandler store u = (store, ⟨200, userJson u⟩) := by
  refine ⟨rfl, ?_, rfl, rfl, rfl, rfl, rfl, rfl, rfl⟩
  intro p hp
  have hkey : p.1 ∈ ["_id", "name", "email", "age", "createdAt",
      "updatedAt"] := by
    have hm : p.1 ∈ (userToJSON u).map Prod.fst :=
      List.mem_map_of_mem Prod.fst hp
    rw [show (userToJSON u).map Prod.fst =
      ["_id", "name", "email", "age", "createdAt", "updatedAt"] from rfl] at hm
    exact hm
  simp only [List.mem_cons, List.not_mem_nil, or_false] at hkey
  rcases hkey with h | h | h | h | h | h <;> rw [h] <;>
    exact ⟨by decide, by decide, by decide⟩

/-- Witness for C8: Ann's serialised record has exactly the six public
keys, her name under `name`, and serving her profile does not change the
store. -/
theorem user_serialization_omits_private_witness :
    ((userToJSON wAnn).map Prod.fst =
      ["_id", "name", "email", "age", "createdAt", "updatedAt"]) ∧
    List.lookup "name" (userToJSON wAnn) = some (.str wAnn.name) ∧
    getMeHandler wStore wAnn = (wStore, ⟨200, userJson wAnn⟩) :=
  ⟨(user_serialization_omits_private wStore wAnn).1,
   (user_serialization_omits_private wStore wAnn).2.2.2.1,
   (user_serialization_omits_private wStore wAnn).2.2.2.2.2.2.2.2⟩

/-! ### C9 -/

/-- C9: clearing the avatar answers the success response; clearing it
again, as the stored (already cleared) user, answers the same success
response and leaves the store exactly as after the first call; after the
first call the stored record's avatar is absent. -/
theorem delete_avatar_idempotent (store : Store) (u : User) :
    (deleteAvatarHandler store u).2 =
      ⟨200, .str "Successfully deleted your avatar"⟩ ∧
    deleteAvatarHandler (deleteAvatarHandler store u).1
        { u with avatar := none } =
      ((deleteAvatarHandler store u).1,
       ⟨200, .str "Successfully deleted your avatar"⟩) ∧
    (∀ x ∈ (deleteAvatarHandler store u).1.users, x.id = u.id →
      x.avatar = none) := by
  refine ⟨rfl, ?_, fun x hx hid => ?_⟩
  · show (persistUser (persistUser store { u with avatar := none })
          { u with avatar := none },
        (⟨200, .str "Successfully deleted your avatar"⟩ : Response)) =
      (persistUser store { u with avatar := none },
       ⟨200, .str "Successfully deleted your avatar"⟩)
    rw [persistUser_idem]
  · have hx' : x ∈ store.users.map
        (fun y => if y.id == u.id then { u with avatar := none } else y) := hx
    obtain ⟨a, _, rfl⟩ := List.mem_map.mp hx'
    by_cases h : (a.id == u.id) = true
    · rw [if_pos h]
    · rw [if_neg h] at hid ⊢
      exact absurd (beq_iff_eq.mpr hid) h

/-- Witness for C9: for Ann in `wStore`, both consecutive avatar
deletions answer the success response, the second changes nothing, and
the stored record after the first has no avatar. -/
theorem delete_avatar_idempotent_witness :
    (deleteAvatarHandler wStore wAnn).2 =
      ⟨200, .str "Successfully deleted your avatar"⟩ ∧
    deleteAvatarHandler (deleteAvatarHandler wStore wAnn).1
        { wAnn with avatar := none } =
      ((deleteAvatarHandler wStore wAnn).1,
       ⟨200, .str "Successfully deleted your avatar"⟩) ∧
    ({ wAnn with avatar := none } : User).avatar = none :=
  ⟨(delete_avatar_idempotent wStore wAnn).1,
   (delete_avatar_idempotent wStore wAnn).2.1,
   (delete_avatar_idempotent wStore wAnn).2.2 { wAnn with avatar := none }
     (by decide) rfl⟩

/-! ### C10 -/

/-- The pre-save hook leaves a user whose password path was not modified
unhashed. -/
theorem preSaveHash_self (u : User) : preSaveHash u u = u := by
  simp [preSaveHash]

/-- C10: an update request with an empty body passes the allowlist check
vacuously and succeeds with 200, returning the entity unchanged and
leaving the store unchanged — for the profile patch as well as for the
patch of an owned task. -/
theorem empty_patch_noop
    (store : Store) (u : User) (t : Task) (id : Nat)
    (hu : validUser u = true)
    (hu1 : ∀ x ∈ store.users, x.id = u.id → x = u)
    (ht : taskFindOne store id u.id = some t)
    (hv : validTask t = true)
    (ht1 : ∀ x ∈ store.tasks, x.id = t.id → x = t) :
    patchUserHandler store u [] = (store, ⟨200, userJson u⟩) ∧
    patchTaskHandler store u id [] = (store, ⟨200, taskJson t⟩) := by
  have hpu : persistUser store u = store := by
    show Store.mk (store.users.map (fun x => if x.id == u.id then u else x))
        store.tasks = store
    rw [map_self_of_eq (fun x hx => ?_)]
    by_cases h : (x.id == u.id) = true
    · rw [if_pos h]
      exact (hu1 x hx (beq_iff_eq.mp h)).symm
    · rw [if_neg h]
  have hpt : persistTask store t = store := by
    show Store.mk store.users
        (store.tasks.map (fun x => if x.id == t.id then t else x)) = store
    rw [map_self_of_eq (fun x hx => ?_)]
    by_cases h : (x.id == t.id) = true
    · rw [if_pos h]
      exact (ht1 x hx (beq_iff_eq.mp h)).symm
    · rw [if_neg h]
  constructor
  · have h1 : patchUserHandler store u [] =
        (if validUser u = true
         then (persistUser store (preSaveHash u u),
               ⟨200, userJson (preSaveHash u u)⟩)
         else (store, ⟨400, .obj []⟩)) := rfl
    rw [h1, if_pos hu, preSaveHash_self, hpu]
  · have h2 : patchTaskHandler store u id [] =
        (match taskFindOne store id u.id with
         | none => (store, ⟨404, .obj [("error", .str "User not found")]⟩)
         | some t0 =>
             match applyTaskUpdates t0 [] with
             | none => (store, ⟨400, .obj []⟩)
             | some t' =>
                 if validTask t' = true
                 then (persistTask store t', ⟨200, taskJson t'⟩)
                 else (store, ⟨400, .obj []⟩)) := rfl
    rw [h2, ht]
    show (if validTask t = true
          then ((persistTask store t, ⟨200, taskJson t⟩) : Store × Response)
          else (store, ⟨400, .obj []⟩)) = (store, ⟨200, taskJson t⟩)
    rw [if_pos hv, hpt]

/-- Witness for C10: patching Ann's profile and her task 10 with empty
bodies both answer 200 with the unchanged entity and leave `wStoreTasks`
as it was. -/
theorem empty_patch_noop_witness :
    patchUserHandler wStoreTasks wAnn [] =
      (wStoreTasks, ⟨200, userJson wAnn⟩) ∧
    patchTaskHandler wStoreTasks wAnn 10 [] =
      (wStoreTasks, ⟨200, taskJson wTaskA⟩) :=
  empty_patch_noop wStoreTasks wAnn wTaskA 10 (by decide) (by decide)
    (by decide) (by decide) (by decide)

end TaskApp
